import Mathlib

/-!
Verification development for the `term` expression-language interpreter
(lexer `src/interpreter/parser/lex.rs`, parser `src/interpreter/parser.rs`,
evaluator `src/interpreter.rs`).

Shallow embedding conventions:
* Rust `i64` is modelled as unbounded `Int`; Rust `/` on `i64` is `Int.tdiv`
  (truncation toward zero) and `%` is `Int.tmod` (remainder with the sign of
  the dividend), matching Rust semantics on the in-range values the claims
  quantify over.
* Rust `f64` is modelled as `ℚ`: every claim touching `Decimal` values only
  compares them for equality with exactly the expression the code computes,
  so the rational model is adequate.
* Rust panics (`panic!`, `expect`, out-of-bounds indexing and slicing) are
  modelled as `Except.error` values carrying a constructor that names the
  panic site.
* `visit_node` recursion in the source is not structurally terminating
  (`visit_unaryop_node` re-visits the very node it was given), so the
  evaluator is embedded with an explicit fuel parameter; running out of fuel
  at every fuel value is the model of non-termination.  The recursive-descent
  parser is likewise fueled; a fuel linear in the token count is always
  sufficient for terminating runs.
* Unicode character classes (`is_whitespace`, `is_alphanumeric`, ...) are
  restricted to their ASCII behaviour, and byte offsets coincide with
  character offsets; every input appearing in the claims is ASCII.
* Rust `HashMap<String, ValueKind>` is modelled as an association list with
  overwrite-on-insert; lookup order is immaterial to the map semantics.
-/

namespace Term

/-- Token kinds, from `enum TokenKind` in lex.rs. -/
inductive TokenKind where
  | Integer (n : Int)
  | Decimal (q : ℚ)
  | Identifier (s : String)
  | QuotedString (s : String)
  | Boolean (b : Bool)
  | Plus
  | Minus
  | Asterisk
  | ForwardSlash
  | Dot
  | Assign
  | Lparen
  | Rparen
  | If
  | While
  | NewLine
  | Less
  | Greater
  | IsEquals
  | NotEquals
  | Not
  deriving DecidableEq, Repr

/-- Lexer failure modes; every one is a `panic!`/`expect` site in lex.rs. -/
inductive LexErr where
  | unknownChar (c : Char)
  | unexpectedEof
  | indexOutOfBounds
  | emptyTake
  | digitStartIdent
  | fuelOut
  deriving DecidableEq, Repr

/-- `take_while` from lex.rs: longest prefix satisfying `p`; an empty prefix
is `Err(0)`. -/
def take_while (p : Char → Bool) (data : List Char) : Except Nat (List Char × Nat) :=
  let t := data.takeWhile p
  if t.length = 0 then .error 0 else .ok (t, t.length)

/-- The stateful predicate of `lex_ident`: `c == '_' || c.is_alphanumeric()`. -/
def identChar (c : Char) : Bool := c == '_' || c.isAlphanum

/-- `lex_ident` from lex.rs (both `panic!` sites become errors). -/
def lex_ident (data : List Char) : Except LexErr (TokenKind × Nat) :=
  match data with
  | [] => .error .unexpectedEof
  | c :: _ =>
    if c.isDigit then .error .digitStartIdent
    else
      match take_while identChar data with
      | .error _ => .error .emptyTake
      | .ok (got, n) => .ok (.Identifier (String.mk got), n)

/-- The number-scanning loop of `lex_number`: `take_while` with the mutable
`was_dot` flag threaded explicitly.  Returns the scanned prefix and the final
flag value. -/
def numTake : Bool → List Char → (List Char × Bool)
  | wd, [] => ([], wd)
  | wd, c :: rest =>
    if c.isDigit then
      let r := numTake wd rest
      (c :: r.1, r.2)
    else if c = '.' ∧ wd = false then
      let r := numTake true rest
      (c :: r.1, r.2)
    else ([], wd)

/-- Decimal-digit string to natural number, as `str::parse` on a digit run. -/
def digitsVal (l : List Char) : Nat := l.foldl (fun a c => 10 * a + (c.toNat - 48)) 0

/-- Value of a numeric literal containing one `.`, as `str::parse::<f64>`
(exact, in the rational model). -/
def decimalVal (l : List Char) : ℚ :=
  let ip := l.takeWhile (fun c => c != '.')
  let fp := (l.dropWhile (fun c => c != '.')).drop 1
  (digitsVal ip : ℚ) + (digitsVal fp : ℚ) / ((10 : ℚ) ^ fp.length)

/-- `lex_number` from lex.rs. -/
def lex_number (data : List Char) : Except LexErr (TokenKind × Nat) :=
  let r := numTake false data
  if r.1.length = 0 then .error .emptyTake
  else if r.2 then .ok (.Decimal (decimalVal r.1), r.1.length)
  else .ok (.Integer (digitsVal r.1 : Int), r.1.length)

/-- The string-scanning loop of `lex_string`: `take_while` with the mutable
`was_first` flag threaded explicitly. -/
def strTake : Bool → List Char → (List Char × Bool)
  | wf, [] => ([], wf)
  | wf, c :: rest =>
    if c == '"' && wf then ([], wf)
    else
      let r := strTake true rest
      (c :: r.1, r.2)

/-- `lex_string` from lex.rs: scans the opening quote plus the body, drops the
opening quote (`result.remove(0)`) and reports `bytes_read + 1` to account for
the closing quote. -/
def lex_string (data : List Char) : Except LexErr (TokenKind × Nat) :=
  let r := strTake false data
  if r.1.length = 0 then .error .emptyTake
  else .ok (.QuotedString (String.mk (r.1.drop 1)), r.1.length + 1)

/-- `lex_equals` from lex.rs: reads `data.as_bytes()[1]`, which panics (index
out of bounds) when `=` is the last character of the input. -/
def lex_equals (data : List Char) : Except LexErr (TokenKind × Nat) :=
  match data.get? 1 with
  | none => .error .indexOutOfBounds
  | some c => if c = '=' then .ok (.IsEquals, 2) else .ok (.Assign, 1)

/-- `lex_not` from lex.rs: same out-of-bounds behaviour as `lex_equals`. -/
def lex_not (data : List Char) : Except LexErr (TokenKind × Nat) :=
  match data.get? 1 with
  | none => .error .indexOutOfBounds
  | some c => if c = '=' then .ok (.NotEquals, 2) else .ok (.Not, 1)

/-- `skip_whitespace` from lex.rs. -/
def skip_whitespace (data : List Char) : Nat :=
  match take_while (fun c => c.isWhitespace) data with
  | .ok (_, n) => n
  | .error _ => 0

/-- `skip_until` from lex.rs: advances until `pat` is a prefix, then slices it
off; when the pattern never occurs the final slice `&src[pattern.len()..]` of
the empty string panics. -/
def skip_until : List Char → List Char → Except LexErr (List Char)
  | [], pat => if pat.length = 0 then .ok [] else .error .indexOutOfBounds
  | c :: rest, pat =>
    if pat.isPrefixOf (c :: rest) then .ok ((c :: rest).drop pat.length)
    else skip_until rest pat

/-- `skip_comments` from lex.rs: `//`-to-newline and `/*`-to-`*/` comments. -/
def skip_comments (src : List Char) : Except LexErr Nat :=
  if ['/', '/'].isPrefixOf src then
    match skip_until src ['\n'] with
    | .error e => .error e
    | .ok leftovers => .ok (src.length - leftovers.length)
  else if ['/', '*'].isPrefixOf src then
    match skip_until src ['*', '/'] with
    | .error e => .error e
    | .ok leftovers => .ok (src.length - leftovers.length)
  else .ok 0

/-- `skip` from lex.rs: alternate whitespace and comment skipping until
neither makes progress.  Returns the remaining input (the source returns the
consumed count; the two are interconvertible).  Fueled; each looping
iteration consumes at least one character, so `src.length + 1` fuel always
suffices. -/
def skipAll (fuel : Nat) (src : List Char) : Except LexErr (List Char) :=
  match fuel with
  | 0 => .error .fuelOut
  | fuel + 1 =>
    let ws := skip_whitespace src
    let r1 := src.drop ws
    match skip_comments r1 with
    | .error e => .error e
    | .ok cm =>
      if ws + cm = 0 then .ok r1
      else skipAll fuel (r1.drop cm)

/-- `lex_one` from lex.rs: dispatch on the first character.  Note that a
digit dispatches to `lex_number` before the identifier arm can be reached. -/
def lex_one (data : List Char) : Except LexErr (TokenKind × Nat) :=
  match data with
  | [] => .error .unexpectedEof
  | c :: _ =>
    if c = '.' then .ok (.Dot, 1)
    else if c = '=' then lex_equals data
    else if c = '!' then lex_not data
    else if c = '<' then .ok (.Less, 1)
    else if c = '>' then .ok (.Greater, 1)
    else if c = '+' then .ok (.Plus, 1)
    else if c = '-' then .ok (.Minus, 1)
    else if c = '*' then .ok (.Asterisk, 1)
    else if c = '/' then .ok (.ForwardSlash, 1)
    else if c = '(' then .ok (.Lparen, 1)
    else if c = ')' then .ok (.Rparen, 1)
    else if c = '\n' then .ok (.NewLine, 1)
    else if c = '"' then lex_string data
    else if c.isDigit then lex_number data
    else if c = '_' ∨ c.isAlpha then
      match lex_ident data with
      | .error e => .error e
      | .ok (tok, len) =>
        match tok with
        | .Identifier i =>
          if i = "if" then .ok (.If, 2)
          else if i = "while" then .ok (.While, 5)
          else if i = "true" then .ok (.Boolean true, 4)
          else if i = "false" then .ok (.Boolean false, 5)
          else .ok (.Identifier i, len)
        | other => .ok (other, len)
    else .error (.unknownChar c)

/-- The `Lexer::next_token` loop of `lex`: skip, stop on empty input,
otherwise lex one token and chomp its length.  Chomping more bytes than
remain (possible for an unterminated string literal) is the slicing panic of
`Lexer::chomp`. -/
def lexAll (fuel : Nat) (src : List Char) : Except LexErr (List TokenKind) :=
  match fuel with
  | 0 => .error .fuelOut
  | fuel + 1 =>
    match skipAll (src.length + 1) src with
    | .error e => .error e
    | .ok rest =>
      match rest with
      | [] => .ok []
      | _ :: _ =>
        match lex_one rest with
        | .error e => .error e
        | .ok (tok, len) =>
          if len ≤ rest.length then
            match lexAll fuel (rest.drop len) with
            | .error e => .error e
            | .ok toks => .ok (tok :: toks)
          else .error .indexOutOfBounds

/-- `lex` from lex.rs.  Every produced token consumes at least one character,
so `src.length + 1` fuel always suffices. -/
def lex (src : String) : Except LexErr (List TokenKind) :=
  lexAll (src.length + 1) src.data

/-- `struct Node` from parser.rs: a tree node owning its children plus a
token tag. -/
structure Node where
  children : List Node
  entry : TokenKind
  deriving Repr

/-- Parser failure modes, from the `Err(String)` sites of parser.rs. -/
inductive ParseErr where
  | unexpectedEofTerm
  | expectedRparen
  | unexpectedToken
  | expectedEof
  | lexPanic (e : LexErr)
  | fuelOut
  deriving DecidableEq, Repr

/-- Selector for the three mutually recursive parser functions of parser.rs.
They are embedded as one fueled function (`parse_go`) so that the recursion
is structural on the fuel; `parse_expr`, `parse_summand` and `parse_term`
below recover the source functions. -/
inductive ParsePhase where
  | exprP
  | summandP
  | termP
  deriving DecidableEq, Repr

/-- The bodies of `parse_expr` (`exprP` arm), `parse_summand` (`summandP`
arm) and `parse_term` (`termP` arm) from parser.rs, verbatim up to the fuel
threading.  Note the `exprP` continuation re-invokes `exprP` itself for the
right-hand side, and the unary `+`/`-` arms of `termP` build a binary node
with a literal `0` left child. -/
def parse_go (fuel : Nat) (ph : ParsePhase) (tokens : List TokenKind) (pos : Nat) :
    Except ParseErr (Node × Nat) :=
  match fuel with
  | 0 => .error .fuelOut
  | f + 1 =>
    match ph with
    | .exprP =>
      match parse_go f .summandP tokens pos with
      | .error e => .error e
      | .ok (node_summand, next_pos) =>
        match tokens.get? next_pos with
        | some tk =>
          match tk with
          | .Plus =>
            match parse_go f .exprP tokens (next_pos + 1) with
            | .error e => .error e
            | .ok (rhs, i) => .ok (⟨[node_summand, rhs], .Plus⟩, i)
          | .Minus =>
            match parse_go f .exprP tokens (next_pos + 1) with
            | .error e => .error e
            | .ok (rhs, i) => .ok (⟨[node_summand, rhs], .Minus⟩, i)
          | .Assign =>
            match parse_go f .exprP tokens (next_pos + 1) with
            | .error e => .error e
            | .ok (rhs, i) => .ok (⟨[node_summand, rhs], .Assign⟩, i)
          | _ => .ok (node_summand, next_pos)
        | none => .ok (node_summand, next_pos)
    | .summandP =>
      match parse_go f .termP tokens pos with
      | .error e => .error e
      | .ok (node_term, next_pos) =>
        match tokens.get? next_pos with
        | some .Asterisk =>
          match parse_go f .summandP tokens (next_pos + 1) with
          | .error e => .error e
          | .ok (rhs, i) => .ok (⟨[node_term, rhs], .Asterisk⟩, i)
        | some .ForwardSlash =>
          match parse_go f .summandP tokens (next_pos + 1) with
          | .error e => .error e
          | .ok (rhs, i) => .ok (⟨[node_term, rhs], .ForwardSlash⟩, i)
        | _ => .ok (node_term, next_pos)
    | .termP =>
      match tokens.get? pos with
      | none => .error .unexpectedEofTerm
      | some t =>
        match t with
        | .Integer n => .ok (⟨[], .Integer n⟩, pos + 1)
        | .Decimal n => .ok (⟨[], .Decimal n⟩, pos + 1)
        | .QuotedString s => .ok (⟨[], .QuotedString s⟩, pos + 1)
        | .Identifier name => .ok (⟨[], .Identifier name⟩, pos + 1)
        | .Lparen =>
          match parse_go f .exprP tokens (pos + 1) with
          | .error e => .error e
          | .ok (node, next_pos) =>
            match tokens.get? next_pos with
            | some .Rparen => .ok (node, next_pos + 1)
            | _ => .error .expectedRparen
        | .Plus =>
          match parse_go f .exprP tokens (pos + 1) with
          | .error e => .error e
          | .ok (node, next_pos) => .ok (⟨[⟨[], .Integer 0⟩, node], .Plus⟩, next_pos)
        | .Minus =>
          match parse_go f .summandP tokens (pos + 1) with
          | .error e => .error e
          | .ok (node, next_pos) => .ok (⟨[⟨[], .Integer 0⟩, node], .Minus⟩, next_pos)
        | _ => .error .unexpectedToken

/-- `parse_expr` from parser.rs. -/
def parse_expr (fuel : Nat) (tokens : List TokenKind) (pos : Nat) : Except ParseErr (Node × Nat) :=
  parse_go fuel .exprP tokens pos

/-- `parse_summand` from parser.rs. -/
def parse_summand (fuel : Nat) (tokens : List TokenKind) (pos : Nat) :
    Except ParseErr (Node × Nat) :=
  parse_go fuel .summandP tokens pos

/-- `parse_term` from parser.rs. -/
def parse_term (fuel : Nat) (tokens : List TokenKind) (pos : Nat) : Except ParseErr (Node × Nat) :=
  parse_go fuel .termP tokens pos

/-- The token-level part of `parse` from parser.rs: parse one expression and
require the whole stream consumed.  Every nested parser call either descends
a grammar level or advances the position, so `4 * length + 8` fuel always
suffices for a terminating parse. -/
def parse_tokens (tokens : List TokenKind) : Except ParseErr Node :=
  match parse_expr (4 * tokens.length + 8) tokens 0 with
  | .error e => .error e
  | .ok (n, i) => if i ≥ tokens.length then .ok n else .error .expectedEof

/-- `parse` from parser.rs: lex, then parse the token stream. -/
def parse (src : String) : Except ParseErr Node :=
  match lex src with
  | .error e => .error (.lexPanic e)
  | .ok tokens => parse_tokens tokens

/-- `enum ValueKind` from interpreter.rs. -/
inductive ValueKind where
  | Integer (n : Int)
  | Decimal (q : ℚ)
  | Str (s : String)
  | Identifier (s : String)
  | Boolean (b : Bool)
  | None
  deriving DecidableEq, Repr

/-- `struct State` from interpreter.rs, restricted to the `variables` table:
the `stack` field is never touched by `interpret` or any `visit_*` function,
so it is omitted from the embedding. -/
structure State where
  vars : List (String × ValueKind)
  deriving DecidableEq, Repr

/-- `State::new` from interpreter.rs: the variable table starts empty. -/
def State.new : State := ⟨[]⟩

/-- `HashMap::get` on the association-list model. -/
def lookupVar (name : String) (l : List (String × ValueKind)) : Option ValueKind :=
  (l.find? (fun p => p.1 == name)).map (fun p => p.2)

/-- `HashMap::insert` on the association-list model: overwrite any existing
binding for the key. -/
def insertVar (name : String) (v : ValueKind) (l : List (String × ValueKind)) :
    List (String × ValueKind) :=
  (name, v) :: l.filter (fun p => p.1 != name)

/-- Evaluator failure modes; every one is a `panic!`/`expect` site in
interpreter.rs, plus `fuelOut` for the fuel model of non-termination. -/
inductive EvalErr where
  | divByZero
  | noSuchVar (name : String)
  | unexpectedOp
  | rightNotNumeric
  | leftNotNumeric
  | expectedIdentLhs
  | unexpectedChildren
  | unexpectedNodeType
  | fuelOut
  deriving DecidableEq, Repr

/-- `get_var` from interpreter.rs: looking up a missing name is the `expect`
panic; a stored `Identifier` or `None` value is copied as `None`. -/
def get_var (name : String) (st : State) : Except EvalErr ValueKind :=
  match lookupVar name st.vars with
  | none => .error (.noSuchVar name)
  | some new_value =>
    match new_value with
    | .Decimal v => .ok (.Decimal v)
    | .Integer v => .ok (.Integer v)
    | .Str v => .ok (.Str v)
    | .Boolean v => .ok (.Boolean v)
    | _ => .ok .None

/-- The inner `do_self` of `do_number_node` from interpreter.rs: the full
Decimal/Integer operand matrix.  Rust `i64` division `/` is `Int.tdiv` and
`%` is `Int.tmod`; `f64` arithmetic is exact in the rational model. -/
def do_self (lhs rhs : ValueKind) (op : TokenKind) : Except EvalErr ValueKind :=
  match lhs with
  | .Decimal ln =>
    match rhs with
    | .Decimal rn =>
      match op with
      | .Plus => .ok (.Decimal (ln + rn))
      | .Minus => .ok (.Decimal (ln - rn))
      | .Asterisk => .ok (.Decimal (ln * rn))
      | .ForwardSlash =>
        if rn ≠ 0 then .ok (.Decimal (ln / rn)) else .error .divByZero
      | .IsEquals => .ok (.Boolean (decide (ln = rn)))
      | _ => .error .unexpectedOp
    | .Integer rn =>
      match op with
      | .Plus => .ok (.Decimal (ln + (rn : ℚ)))
      | .Minus => .ok (.Decimal (ln - (rn : ℚ)))
      | .Asterisk => .ok (.Decimal (ln * (rn : ℚ)))
      | .ForwardSlash =>
        if (rn : ℚ) ≠ 0 then .ok (.Decimal (ln / (rn : ℚ))) else .error .divByZero
      | .IsEquals => .ok (.Boolean (decide (ln = (rn : ℚ))))
      | _ => .error .unexpectedOp
    | _ => .error .rightNotNumeric
  | .Integer ln =>
    match rhs with
    | .Decimal rn =>
      match op with
      | .Plus => .ok (.Decimal ((ln : ℚ) + rn))
      | .Minus => .ok (.Decimal ((ln : ℚ) - rn))
      | .Asterisk => .ok (.Decimal ((ln : ℚ) * rn))
      | .ForwardSlash =>
        if rn ≠ 0 then .ok (.Decimal ((ln : ℚ) / rn)) else .error .divByZero
      | .IsEquals => .ok (.Boolean (decide ((ln : ℚ) = rn)))
      | _ => .error .unexpectedOp
    | .Integer rn =>
      match op with
      | .Plus => .ok (.Integer (ln + rn))
      | .Minus => .ok (.Integer (ln - rn))
      | .Asterisk => .ok (.Integer (ln * rn))
      | .ForwardSlash =>
        if rn ≠ 0 then
          if ln.tmod rn ≠ 0 then .ok (.Decimal ((ln : ℚ) / (rn : ℚ)))
          else .ok (.Integer (ln.tdiv rn))
        else .error .divByZero
      | .IsEquals => .ok (.Boolean (decide (ln = rn)))
      | _ => .error .unexpectedOp
    | _ => .error .rightNotNumeric
  | _ => .error .leftNotNumeric

/-- `do_number_node` from interpreter.rs: resolve `Identifier` operands via
`get_var` (left one first), then dispatch to `do_self`. -/
def do_number_node (lhs rhs : ValueKind) (op : TokenKind) (st : State) :
    Except EvalErr ValueKind :=
  match lhs with
  | .Identifier n1 =>
    match rhs with
    | .Identifier n2 =>
      match get_var n1 st with
      | .error e => .error e
      | .ok v1 =>
        match get_var n2 st with
        | .error e => .error e
        | .ok v2 => do_self v1 v2 op
    | _ =>
      match get_var n1 st with
      | .error e => .error e
      | .ok v1 => do_self v1 rhs op
  | _ =>
    match rhs with
    | .Identifier n =>
      match get_var n st with
      | .error e => .error e
      | .ok v2 => do_self lhs v2 op
    | _ => do_self lhs rhs op

/-- `do_assign_node` from interpreter.rs: the left value must be an
unresolved `Identifier`; the stored value copies the right value, resolving
a right-hand `Identifier` through `get_var`; the stored value is returned. -/
def do_assign_node (lhs rhs : ValueKind) (st : State) : Except EvalErr (ValueKind × State) :=
  match lhs with
  | .Identifier name =>
    match
      (match rhs with
       | .Decimal n => (.ok (.Decimal n) : Except EvalErr ValueKind)
       | .Integer n => .ok (.Integer n)
       | .Str s => .ok (.Str s)
       | .Identifier n => get_var n st
       | .Boolean b => .ok (.Boolean b)
       | _ => .ok .None) with
    | .error e => .error e
    | .ok v => .ok (v, ⟨insertVar name v st.vars⟩)
  | _ => .error .expectedIdentLhs

/-- `visit_alone_node` from interpreter.rs: a childless node yields its
literal value, an `Identifier` staying unresolved. -/
def visit_alone_node (node : Node) : ValueKind :=
  match node.entry with
  | .Integer n => .Integer n
  | .Decimal n => .Decimal n
  | .Identifier n => .Identifier n
  | .Boolean b => .Boolean b
  | .QuotedString s => .Str s
  | _ => .None

/-- `visit_node` from interpreter.rs, with the bodies of
`visit_unaryop_node` (one-child arm) and `visit_binop_node` (two-child arm)
inlined so that the recursion is structural on the fuel; the standalone
`visit_unaryop_node`/`visit_binop_node` definitions below recover the source
functions and agree with the inlined arms definitionally
(`visit_node_succ_eq`).  The one-child arm re-visits `node` itself, exactly
as the source does (`let n = visit_node(node, state)`). -/
def visit_node (fuel : Nat) (node : Node) (st : State) : Except EvalErr (ValueKind × State) :=
  match fuel with
  | 0 => .error .fuelOut
  | f + 1 =>
    if node.children.length = 0 then .ok (visit_alone_node node, st)
    else
      match node.entry with
      | .Plus | .Minus | .Asterisk | .ForwardSlash | .Assign | .IsEquals | .NotEquals =>
        if node.children.length = 1 then
          match visit_node f node st with
          | .error e => .error e
          | .ok (n, st1) =>
            match node.entry with
            | .Minus =>
              match do_number_node n (.Integer (-1)) .Asterisk st1 with
              | .error e => .error e
              | .ok v => .ok (v, st1)
            | _ => .ok (n, st1)
        else if node.children.length = 2 then
          match node.children with
          | c0 :: c1 :: _ =>
            match visit_node f c0 st with
            | .error e => .error e
            | .ok (lhs, st1) =>
              match visit_node f c1 st1 with
              | .error e => .error e
              | .ok (rhs, st2) =>
                match node.entry with
                | .Assign => do_assign_node lhs rhs st2
                | _ =>
                  match do_number_node lhs rhs node.entry st2 with
                  | .error e => .error e
                  | .ok v => .ok (v, st2)
          | _ => .error .unexpectedChildren
        else .error .unexpectedChildren
      | _ => .error .unexpectedNodeType

/-- `visit_unaryop_node` from interpreter.rs: evaluates `visit_node` on the
node it was handed (not on its child), then multiplies by `Integer(-1)` for
a `Minus` tag and passes the value through otherwise. -/
def visit_unaryop_node (fuel : Nat) (node : Node) (st : State) :
    Except EvalErr (ValueKind × State) :=
  match visit_node fuel node st with
  | .error e => .error e
  | .ok (n, st1) =>
    match node.entry with
    | .Minus =>
      match do_number_node n (.Integer (-1)) .Asterisk st1 with
      | .error e => .error e
      | .ok v => .ok (v, st1)
    | _ => .ok (n, st1)

/-- `visit_binop_node` from interpreter.rs: evaluate both children left to
right, then dispatch to `do_assign_node` for an `Assign` tag and to
`do_number_node` otherwise. -/
def visit_binop_node (fuel : Nat) (node : Node) (st : State) :
    Except EvalErr (ValueKind × State) :=
  match node.children with
  | c0 :: c1 :: _ =>
    match visit_node fuel c0 st with
    | .error e => .error e
    | .ok (lhs, st1) =>
      match visit_node fuel c1 st1 with
      | .error e => .error e
      | .ok (rhs, st2) =>
        match node.entry with
        | .Assign => do_assign_node lhs rhs st2
        | _ =>
          match do_number_node lhs rhs node.entry st2 with
          | .error e => .error e
          | .ok v => .ok (v, st2)
  | _ => .error .unexpectedChildren

/-- Top-level interpreter failure: a parse failure (the `expect` panic in
`interpret`) or an evaluator failure. -/
inductive InterpErr where
  | parseFail (e : ParseErr)
  | eval (e : EvalErr)
  deriving DecidableEq, Repr

/-- The `main_state.vars.insert("NULL", Integer(0))` step of
`interpret` from interpreter.rs. -/
def seed_null (st : State) : State := ⟨insertVar ("NULL") (.Integer 0) st.vars⟩

/-- `interpret` from interpreter.rs: parse the line, seed the `NULL`
binding, then evaluate.  The source discards the value `visit_node`
returns and yields `0`; the embedding exposes the value and final state so
that they can be specified.  An expression tree from `parse src` has depth
at most the token count, which is at most `src.length`, so the fuel
`src.length + 8` is always sufficient. -/
def interpret (src : String) (st : State) : Except InterpErr (ValueKind × State) :=
  match parse src with
  | .error e => .error (.parseFail e)
  | .ok tree =>
    match visit_node (src.length + 8) tree (seed_null st) with
    | .error e => .error (.eval e)
    | .ok r => .ok r

/-- The interpreter pipeline starting from a token stream (no lexing, no
`NULL` seeding): used to specify evaluation of expression forms such as
`a / b` for arbitrary integer literals `a`, `b`. -/
def eval_tokens (tokens : List TokenKind) (st : State) : Except InterpErr (ValueKind × State) :=
  match parse_tokens tokens with
  | .error e => .error (.parseFail e)
  | .ok tree =>
    match visit_node (tokens.length + 8) tree st with
    | .error e => .error (.eval e)
    | .ok r => .ok r

/-- Plumbing helper: how `eval_tokens` wraps the result of a binary
arithmetic node once both children are evaluated (the value/state pairing of
`visit_binop_node` followed by the error wrapping of `eval_tokens`).  Used
to rewrite under hypotheses about `do_self`/`do_number_node`/`get_var`. -/
def num_step (st : State) (x : Except EvalErr ValueKind) : Except InterpErr (ValueKind × State) :=
  match
    (match x with
     | .error e => (.error e : Except EvalErr (ValueKind × State))
     | .ok v => .ok (v, st)) with
  | .error e => .error (.eval e)
  | .ok r => .ok r

mutual
/-- Arity invariant of parser output: every node has exactly zero or exactly
two children, recursively. -/
def goodArity : Node → Bool
  | ⟨cs, _⟩ => (cs.length == 0 || cs.length == 2) && goodArityList cs

/-- `goodArity` on every node of a list. -/
def goodArityList : List Node → Bool
  | [] => true
  | c :: cs => goodArity c && goodArityList cs
end

/-- Lifts `goodArity` over a parser result: a successful parse carries a
well-arched node, a failed one is vacuously fine. -/
def arityOk : Except ParseErr (Node × Nat) → Prop
  | .ok (n, _) => goodArity n = true
  | .error _ => True

/-- The one-step unfolding of `visit_node` at positive fuel is exactly the
dispatch of the source `visit_node` into `visit_unaryop_node` and
`visit_binop_node`: the inlining in `visit_node` is definitionally faithful
to the standalone functions. -/
theorem visit_node_succ_eq (f : Nat) (node : Node) (st : State) :
    visit_node (f + 1) node st =
      (if node.children.length = 0 then .ok (visit_alone_node node, st)
       else
        match node.entry with
        | .Plus | .Minus | .Asterisk | .ForwardSlash | .Assign | .IsEquals | .NotEquals =>
          if node.children.length = 1 then visit_unaryop_node f node st
          else if node.children.length = 2 then visit_binop_node f node st
          else .error .unexpectedChildren
        | _ => .error .unexpectedNodeType) := rfl

/-- Every successful `parse_go` run, at any fuel, any phase and any
position, returns a tree whose nodes all have exactly zero or exactly two
children. -/
theorem parse_go_arity :
    ∀ (fuel : Nat) (ph : ParsePhase) (tokens : List TokenKind) (pos : Nat),
      arityOk (parse_go fuel ph tokens pos) := by
  intro fuel
  induction fuel with
  | zero => intro ph tokens pos; simp [parse_go, arityOk]
  | succ f ih =>
    intro ph tokens pos
    cases ph with
    | exprP =>
      have h1 := ih .summandP tokens pos
      simp only [parse_go]
      cases hs : parse_go f .summandP tokens pos with
      | error e => simp [arityOk, hs]
      | ok p =>
        rw [hs] at h1
        obtain ⟨ns, np⟩ := p
        simp only [arityOk] at h1
        cases hg : tokens[np]? with
        | none => simpa [arityOk, hs, hg] using h1
        | some tk =>
          have h2 := ih .exprP tokens (np + 1)
          cases tk
          case Plus =>
            cases he : parse_go f .exprP tokens (np + 1) with
            | error e => simp [arityOk, hs, hg, he]
            | ok q =>
              obtain ⟨rhs, ii⟩ := q
              rw [he] at h2
              simp only [arityOk] at h2
              simp [arityOk, goodArity, goodArityList, hs, hg, he, h1, h2]
          case Minus =>
            cases he : parse_go f .exprP tokens (np + 1) with
            | error e => simp [arityOk, hs, hg, he]
            | ok q =>
              obtain ⟨rhs, ii⟩ := q
              rw [he] at h2
              simp only [arityOk] at h2
              simp [arityOk, goodArity, goodArityList, hs, hg, he, h1, h2]
          case Assign =>
            cases he : parse_go f .exprP tokens (np + 1) with
            | error e => simp [arityOk, hs, hg, he]
            | ok q =>
              obtain ⟨rhs, ii⟩ := q
              rw [he] at h2
              simp only [arityOk] at h2
              simp [arityOk, goodArity, goodArityList, hs, hg, he, h1, h2]
          all_goals simpa [arityOk, hs, hg] using h1
    | summandP =>
      have h1 := ih .termP tokens pos
      simp only [parse_go]
      cases hs : parse_go f .termP tokens pos with
      | error e => simp [arityOk, hs]
      | ok p =>
        rw [hs] at h1
        obtain ⟨ns, np⟩ := p
        simp only [arityOk] at h1
        cases hg : tokens[np]? with
        | none => simpa [arityOk, hs, hg] using h1
        | some tk =>
          have h2 := ih .summandP tokens (np + 1)
          cases tk
          case Asterisk =>
            cases he : parse_go f .summandP tokens (np + 1) with
            | error e => simp [arityOk, hs, hg, he]
            | ok q =>
              obtain ⟨rhs, ii⟩ := q
              rw [he] at h2
              simp only [arityOk] at h2
              simp [arityOk, goodArity, goodArityList, hs, hg, he, h1, h2]
          case ForwardSlash =>
            cases he : parse_go f .summandP tokens (np + 1) with
            | error e => simp [arityOk, hs, hg, he]
            | ok q =>
              obtain ⟨rhs, ii⟩ := q
              rw [he] at h2
              simp only [arityOk] at h2
              simp [arityOk, goodArity, goodArityList, hs, hg, he, h1, h2]
          all_goals simpa [arityOk, hs, hg] using h1
    | termP =>
      simp only [parse_go]
      cases hg : tokens[pos]? with
      | none => simp [arityOk, hg]
      | some t =>
        cases t
        case Lparen =>
          have h2 := ih .exprP tokens (pos + 1)
          cases he : parse_go f .exprP tokens (pos + 1) with
          | error e => simp [arityOk, hg, he]
          | ok q =>
            obtain ⟨node, np⟩ := q
            rw [he] at h2
            simp only [arityOk] at h2
            cases hg2 : tokens[np]? with
            | none => simp [arityOk, hg, he, hg2]
            | some t2 => cases t2 <;> simp [arityOk, hg, he, hg2, h2]
        case Plus =>
          have h2 := ih .exprP tokens (pos + 1)
          cases he : parse_go f .exprP tokens (pos + 1) with
          | error e => simp [arityOk, hg, he]
          | ok q =>
            obtain ⟨node, np⟩ := q
            rw [he] at h2
            simp only [arityOk] at h2
            simp [arityOk, goodArity, goodArityList, hg, he, h2]
        case Minus =>
          have h2 := ih .summandP tokens (pos + 1)
          cases he : parse_go f .summandP tokens (pos + 1) with
          | error e => simp [arityOk, hg, he]
          | ok q =>
            obtain ⟨node, np⟩ := q
            rw [he] at h2
            simp only [arityOk] at h2
            simp [arityOk, goodArity, goodArityList, hg, he, h2]
        all_goals simp [arityOk, goodArity, goodArityList, hg]

/-- C1: for all integer literals `a` and `b` with `b ≠ 0`, evaluating the
expression `a / b` yields `Integer(a / b)` (Rust truncating division) if and
only if `a % b == 0`, and otherwise yields `Decimal(a as f64 / b as f64)`.
The expression is embedded as the token stream of `a / b`, run through the
parser and evaluator. -/
theorem c1_integer_exact_division (a b : Int) (st : State) (h : b ≠ 0) :
    (eval_tokens [.Integer a, .ForwardSlash, .Integer b] st = .ok (.Integer (a.tdiv b), st)
      ↔ a.tmod b = 0)
    ∧ (a.tmod b ≠ 0 →
        eval_tokens [.Integer a, .ForwardSlash, .Integer b] st
          = .ok (.Decimal ((a : ℚ) / (b : ℚ)), st)) := by
  have hkey : eval_tokens [.Integer a, .ForwardSlash, .Integer b] st
      = num_step st (do_self (.Integer a) (.Integer b) .ForwardSlash) := rfl
  by_cases hm : a.tmod b = 0
  · have hds : do_self (.Integer a) (.Integer b) .ForwardSlash = .ok (.Integer (a.tdiv b)) := by
      simp [do_self, h, hm]
    rw [hkey, hds]
    exact ⟨⟨fun _ => hm, fun _ => rfl⟩, fun hc => absurd hm hc⟩
  · have hds : do_self (.Integer a) (.Integer b) .ForwardSlash
        = .ok (.Decimal ((a : ℚ) / (b : ℚ))) := by
      simp [do_self, h, hm]
    rw [hkey, hds]
    refine ⟨⟨fun heq => ?_, fun h0 => absurd h0 hm⟩, fun _ => rfl⟩
    simp [num_step] at heq

/-- Witness for C1 at `a = 7`, `b = 2`: not exactly divisible, so the result
is the decimal quotient. -/
theorem c1_witness :
    eval_tokens [.Integer 7, .ForwardSlash, .Integer 2] State.new
      = .ok (.Decimal ((7 : ℚ) / (2 : ℚ)), State.new) :=
  (c1_integer_exact_division 7 2 State.new (by decide)).2 (by decide)

/-- C2 counterexample: evaluating the line consisting of just the unassigned
identifier `n` does not fail; it succeeds with the unresolved value
`Identifier("n")` (the claim asserts it fails with an undefined-variable
error). -/
theorem c2_counterexample :
    interpret ("n") State.new = .ok (.Identifier ("n"), seed_null State.new) := rfl

/-- C2 amended: evaluating a childless identifier node never consults the
environment and succeeds with the unresolved `Identifier` value, for every
environment; the undefined-variable error arises only when the identifier is
consumed as an operand (here: of an addition), via `get_var`. -/
theorem c2_lone_identifier_unresolved :
    (∀ (name : String) (st : State) (fuel : Nat),
        visit_node (fuel + 1) ⟨[], .Identifier name⟩ st = .ok (.Identifier name, st))
    ∧ (∀ (name : String) (st : State), lookupVar name st.vars = none →
        eval_tokens [.Identifier name, .Plus, .Integer 0] st
          = .error (.eval (.noSuchVar name))) := by
  refine ⟨fun name st fuel => rfl, fun name st h => ?_⟩
  have hg : get_var name st = .error (.noSuchVar name) := by
    simp [get_var, h]
  have hdn : do_number_node (.Identifier name) (.Integer 0) .Plus st
      = .error (.noSuchVar name) := by
    simp [do_number_node, hg]
  have hkey : eval_tokens [.Identifier name, .Plus, .Integer 0] st
      = num_step st (do_number_node (.Identifier name) (.Integer 0) .Plus st) := rfl
  rw [hkey, hdn]
  rfl

/-- Witness for C2 amended at `name = n` in the empty environment. -/
theorem c2_witness :
    visit_node 1 ⟨[], .Identifier ("n")⟩ State.new = .ok (.Identifier ("n"), State.new)
    ∧ eval_tokens [.Identifier ("n"), .Plus, .Integer 0] State.new
        = .error (.eval (.noSuchVar ("n"))) :=
  ⟨c2_lone_identifier_unresolved.1 ("n") State.new 0,
   c2_lone_identifier_unresolved.2 ("n") State.new rfl⟩

/-- C3: evaluating `x / 0` with any numeric literal numerator (Integer or
Decimal) and either zero divisor (`Integer 0` or `Decimal 0.0`) fails with
the division-by-zero error, never a result. -/
theorem c3_division_by_zero_errors (x z : TokenKind) (st : State)
    (hx : (∃ n : Int, x = .Integer n) ∨ (∃ q : ℚ, x = .Decimal q))
    (hz : z = .Integer 0 ∨ z = .Decimal 0) :
    eval_tokens [x, .ForwardSlash, z] st = .error (.eval .divByZero) := by
  rcases hx with ⟨n, rfl⟩ | ⟨q, rfl⟩ <;> rcases hz with rfl | rfl <;> rfl

/-- Witness for C3 at `1 / 0`. -/
theorem c3_witness :
    eval_tokens [.Integer 1, .ForwardSlash, .Integer 0] State.new
      = .error (.eval .divByZero) :=
  c3_division_by_zero_errors (.Integer 1) (.Integer 0) State.new (Or.inl ⟨1, rfl⟩) (Or.inl rfl)

/-- C4: the `expr` level is right-associative because its continuation
re-invokes `expr` itself: `10 - 3 - 2` parses as `10 - (3 - 2)` and
evaluates to `Integer 9`, not `5`. -/
theorem c4_subtraction_right_associative :
    parse ("10 - 3 - 2")
      = .ok ⟨[⟨[], .Integer 10⟩, ⟨[⟨[], .Integer 3⟩, ⟨[], .Integer 2⟩], .Minus⟩], .Minus⟩
    ∧ interpret ("10 - 3 - 2") State.new = .ok (.Integer 9, seed_null State.new) :=
  ⟨rfl, rfl⟩

/-- C5: assignment is right-associative and yields the assigned value:
after `a = b = 5` both `a` and `b` are bound to `Integer 5` in the final
environment and the overall result value is `Integer 5`. -/
theorem c5_assignment_chain :
    ∃ stf : State, interpret ("a = b = 5") State.new = .ok (.Integer 5, stf)
      ∧ lookupVar ("a") stf.vars = some (.Integer 5)
      ∧ lookupVar ("b") stf.vars = some (.Integer 5) :=
  ⟨⟨[("a", .Integer 5), ("b", .Integer 5), ("NULL", .Integer 0)]⟩, rfl, rfl, rfl⟩

/-- C6: on a one-child `Minus` node the evaluator does not terminate with
the negated child value; `visit_unaryop_node` re-visits the whole node, so
evaluation exhausts every fuel (the fuel model of the infinite recursion /
stack overflow of the source), at the concrete node `Minus[Integer 5]`. -/
theorem c6_unary_visit_diverges :
    ∀ (fuel : Nat) (st : State),
      visit_node fuel ⟨[⟨[], .Integer 5⟩], .Minus⟩ st = .error .fuelOut
      ∧ visit_unaryop_node fuel ⟨[⟨[], .Integer 5⟩], .Minus⟩ st = .error .fuelOut := by
  have hmain : ∀ (fuel : Nat) (st : State),
      visit_node fuel ⟨[⟨[], .Integer 5⟩], .Minus⟩ st = .error .fuelOut := by
    intro fuel
    induction fuel with
    | zero => intro st; rfl
    | succ f ih =>
      intro st
      simp [visit_node, ih]
  intro fuel st
  exact ⟨hmain fuel st, by simp [visit_unaryop_node, hmain]⟩

/-- Witness for C6 at fuel 3 and the empty state. -/
theorem c6_witness :
    visit_node 3 ⟨[⟨[], .Integer 5⟩], .Minus⟩ State.new = .error .fuelOut
    ∧ visit_unaryop_node 3 ⟨[⟨[], .Integer 5⟩], .Minus⟩ State.new = .error .fuelOut :=
  c6_unary_visit_diverges 3 State.new

/-- C7 counterexample: lexing `9abc` (digit run immediately followed by
letters) does not fail with a lexical error; it produces the tokens
`Integer 9` then `Identifier "abc"`. -/
theorem c7_counterexample :
    lex ("9abc") = .ok [.Integer 9, .Identifier ("abc")] := rfl

/-- C7 amended: input starting with a digit always dispatches to
`lex_number`, so the digit-start identifier check of `lex_ident` is
unreachable from `lex_one`; a digit run directly followed by letters lexes
as a number token followed by an identifier token. -/
theorem c7_digit_run_then_letters :
    (∀ (c : Char) (rest : List Char), c.isDigit = true →
        lex_one (c :: rest) = lex_number (c :: rest))
    ∧ lex ("12ab") = .ok [.Integer 12, .Identifier ("ab")] := by
  refine ⟨fun c rest h => ?_, rfl⟩
  have hne : ∀ d : Char, d.isDigit = false → ¬ (c = d) := by
    intro d hd he
    rw [he, hd] at h
    exact Bool.noConfusion h
  simp [lex_one, h, hne '.' (by decide), hne '=' (by decide), hne '!' (by decide),
    hne '<' (by decide), hne '>' (by decide), hne '+' (by decide), hne '-' (by decide),
    hne '*' (by decide), hne '/' (by decide), hne '(' (by decide), hne ')' (by decide),
    hne '\n' (by decide), hne '"' (by decide)]

/-- Witness for C7 amended at the digit `7`. -/
theorem c7_witness :
    lex_one ['7'] = lex_number ['7']
    ∧ lex ("12ab") = .ok [.Integer 12, .Identifier ("ab")] :=
  ⟨c7_digit_run_then_letters.1 '7' [] (by decide), c7_digit_run_then_letters.2⟩

/-- C8 counterexample: immediately after `State::new` the variable table
does not contain the reserved `NULL` binding (the claim asserts it is seeded
at `Environment` initialization). -/
theorem c8_counterexample : lookupVar ("NULL") State.new.vars = none := rfl

/-- C8 amended: `State::new` starts with an empty variable table; the
reserved `NULL → Integer 0` binding is inserted by `interpret` after a
successful parse and before evaluation, so it is visible to every
evaluation `interpret` performs (here: resolving `NULL + 0` to `Integer 0`
from any prior state). -/
theorem c8_null_seeded_by_interpret :
    State.new.vars = []
    ∧ (∀ st : State, lookupVar ("NULL") (seed_null st).vars = some (.Integer 0))
    ∧ (∀ st : State, interpret ("NULL + 0") st = .ok (.Integer 0, seed_null st)) :=
  ⟨rfl, fun _ => rfl, fun _ => rfl⟩

/-- Witness for C8 amended at the empty state. -/
theorem c8_witness :
    lookupVar ("NULL") (seed_null State.new).vars = some (.Integer 0)
    ∧ interpret ("NULL + 0") State.new = .ok (.Integer 0, seed_null State.new) :=
  ⟨c8_null_seeded_by_interpret.2.1 State.new, c8_null_seeded_by_interpret.2.2 State.new⟩

/-- C9 counterexample: lexing the input consisting of the single final
character `=` does not yield `Assign`; `lex_equals` indexes one past the end
of the input and the lexer panics (the claim asserts a final `=` yields
`Assign` without panicking). -/
theorem c9_counterexample : lex ("=") = .error .indexOutOfBounds := rfl

/-- C9 amended: when a next character exists, `=`/`!` use one character of
lookahead (`==` yields `IsEquals`, `=` otherwise `Assign`; `!=` yields
`NotEquals`, `!` otherwise `Not`); but when `=` or `!` is the final
character of the input the lexer panics with an index-out-of-bounds instead
of producing `Assign`/`Not`. -/
theorem c9_lookahead_and_eof_panic :
    (∀ (c : Char) (rest : List Char),
        (lex_equals ('=' :: c :: rest)
          = if c = '=' then .ok (.IsEquals, 2) else .ok (.Assign, 1))
        ∧ (lex_not ('!' :: c :: rest)
          = if c = '=' then .ok (.NotEquals, 2) else .ok (.Not, 1)))
    ∧ lex_equals ['='] = .error .indexOutOfBounds
    ∧ lex_not ['!'] = .error .indexOutOfBounds
    ∧ lex ("==") = .ok [.IsEquals]
    ∧ lex ("=1") = .ok [.Assign, .Integer 1]
    ∧ lex ("!=") = .ok [.NotEquals] :=
  ⟨fun _ _ => ⟨rfl, rfl⟩, rfl, rfl, rfl, rfl, rfl⟩

/-- Witness for C9 amended at the lookahead character `1`. -/
theorem c9_witness :
    lex_equals ['=', '1'] = .ok (.Assign, 1) ∧ lex_not ['!', '1'] = .ok (.Not, 1) := by
  have h := c9_lookahead_and_eof_panic.1 '1' []
  refine ⟨?_, ?_⟩
  · simpa using h.1
  · simpa using h.2

/-- C10: every tree a successful `parse` returns satisfies the arity
invariant: each node has exactly zero children (a literal or identifier
leaf) or exactly two children (a binary node, including the desugared unary
forms with a literal `0` left child); no node ever has exactly one child,
so the evaluator's single-child branch is unreachable on parser output. -/
theorem c10_parser_arity (src : String) (n : Node) (h : parse src = .ok n) :
    goodArity n = true := by
  simp only [parse] at h
  cases hl : lex src with
  | error e => simp [hl] at h
  | ok tokens =>
    simp only [hl] at h
    have ha := parse_go_arity (4 * tokens.length + 8) .exprP tokens 0
    simp only [parse_tokens, parse_expr] at h
    cases hp : parse_go (4 * tokens.length + 8) .exprP tokens 0 with
    | error e => simp [hp] at h
    | ok p =>
      obtain ⟨nn, ii⟩ := p
      rw [hp] at ha
      simp only [arityOk] at ha
      simp only [hp] at h
      split at h
      · cases h; exact ha
      · cases h

/-- Witness for C10 on the parse of `1+2`. -/
theorem c10_witness : goodArity ⟨[⟨[], .Integer 1⟩, ⟨[], .Integer 2⟩], .Plus⟩ = true :=
  c10_parser_arity ("1+2") ⟨[⟨[], .Integer 1⟩, ⟨[], .Integer 2⟩], .Plus⟩ rfl

end Term

